import Mathlib

/-!
Verification of the extraction pipeline of `src/app.py` (a single-file
FastAPI product extractor).  The HTML and JSON libraries used by the code
(BeautifulSoup, `json.loads`) are external collaborators; we embed their
*results*: a `Doc` holds the outcome of each soup query the code performs,
and `JsonV` is the value returned by a successful `json.loads`.  Everything
downstream of those library calls — the two-phase field extraction of
`parse_product`, the whitespace post-processing, the translator adapter `t`
and the `/extract` handler — is translated line by line from the source.
-/

namespace NilayShop

/-- A Python value as produced by `json.loads`.  Object fields model an
already-parsed `dict`, so keys are distinct and lookup order is immaterial.
JSON numbers are modelled as integers (every claim only exercises
integer-valued numbers). -/
inductive JsonV where
  | null : JsonV
  | bool : Bool → JsonV
  | num : Int → JsonV
  | str : String → JsonV
  | arr : List JsonV → JsonV
  | obj : List (String × JsonV) → JsonV

/-- Python truthiness of a `JsonV` (`bool(v)`): `None`, `False`, `0`, `""`,
`[]` and `{}` are falsy, everything else truthy. -/
def truthy : JsonV → Bool
  | .null => false
  | .bool b => b
  | .num n => n != 0
  | .str s => s ≠ ""
  | .arr l => !l.isEmpty
  | .obj l => !l.isEmpty

/-- Lookup `d.get(k)` on a parsed dict: `none` models Python `None` (key absent). -/
def jget : List (String × JsonV) → String → Option JsonV
  | [], _ => none
  | (k, v) :: rest, key => if k = key then some v else jget rest key

/-- Python `x or y` where `x` is `d.get(k)` (may be `None`) and `y` a value:
the left value if truthy, otherwise the right value. -/
def pyOr (x : Option JsonV) (y : JsonV) : JsonV :=
  match x with
  | some v => if truthy v then v else y
  | none => y

/-- Python `x or y` where both sides may be `None`. -/
def pyOrO (x y : Option JsonV) : Option JsonV :=
  match x with
  | some v => if truthy v then some v else y
  | none => y

/-- Truthiness of an optional value (`None` is falsy). -/
def optTruthy : Option JsonV → Bool
  | none => false
  | some v => truthy v

/-- Whitespace characters recognised by `str.strip()` and the regex `\s`
(the ASCII subset, which covers every input considered here). -/
def isWs (c : Char) : Bool :=
  c = ' ' || c = '\t' || c = '\n' || c = '\r' || c = '\x0b' || c = '\x0c'

/-- One step of `re.sub(r"\s+", " ", ·)`: the flag records whether we are
inside a whitespace run whose replacement space was already emitted. -/
def collapseGo : Bool → List Char → List Char
  | _, [] => []
  | inRun, c :: cs =>
    if isWs c then
      if inRun then collapseGo true cs
      else ' ' :: collapseGo true cs
    else c :: collapseGo false cs

/-- Replacement `re.sub(r"\s+", " ", s)`: every maximal whitespace run becomes one space. -/
def collapseWsL (l : List Char) : List Char := collapseGo false l

/-- Python `str.strip()` on a character list. -/
def pyStripL (l : List Char) : List Char :=
  ((l.dropWhile isWs).reverse.dropWhile isWs).reverse

/-- Python `str.strip()`. -/
def pyStripS (s : String) : String := String.mk (pyStripL s.toList)

/-- Line 140: `re.sub(r"\s+", " ", v).strip()`. -/
def pyNormalize (s : String) : String := String.mk (pyStripL (collapseWsL s.toList))

/-- Python `str.lower()` restricted to the characters occurring in this
program's patterns and data: ASCII letters plus the Turkish letters used by
the source (`Ğ`, `Ç`, `Ö`, `Ü`, `Ş`).  (Python lowers `İ` to a two-character
sequence; that character never occurs in the code's patterns.) -/
def pyLower (c : Char) : Char :=
  if 'A' ≤ c ∧ c ≤ 'Z' then Char.ofNat (c.toNat + 32)
  else if c = 'Ğ' then 'ğ'
  else if c = 'Ç' then 'ç'
  else if c = 'Ö' then 'ö'
  else if c = 'Ü' then 'ü'
  else if c = 'Ş' then 'ş'
  else c

/-- Python `str.lower()` on a whole string. -/
def pyLowerS (s : String) : String := String.mk (s.toList.map pyLower)

/-- Does `hay` start with `needle`? -/
def startsList : List Char → List Char → Bool
  | [], _ => true
  | _ :: _, [] => false
  | a :: as, b :: bs => a = b && startsList as bs

/-- Substring test on character lists. -/
def containsSub (needle : List Char) : List Char → Bool
  | [] => startsList needle []
  | c :: cs => startsList needle (c :: cs) || containsSub needle cs

/-- Python `needle in hay` for strings (substring containment). -/
def strIn (needle hay : String) : Bool := containsSub needle.toList hay.toList

mutual

/-- Python `repr` of a value, as used by `str()` on lists and dicts inside
an f-string.  String escaping inside the quotes is not modelled; no claim
exercises it. -/
def pyRepr : JsonV → String
  | .null => "None"
  | .bool b => if b then "True" else "False"
  | .num n => toString n
  | .str s => "'" ++ s ++ "'"
  | .arr l => "[" ++ pyReprItems l ++ "]"
  | .obj l => "\x7b" ++ pyReprFields l ++ "\x7d"

/-- Comma-separated `repr`s of list elements. -/
def pyReprItems : List JsonV → String
  | [] => ""
  | [x] => pyRepr x
  | x :: y :: rest => pyRepr x ++ ", " ++ pyReprItems (y :: rest)

/-- Comma-separated `repr`s of dict entries. -/
def pyReprFields : List (String × JsonV) → String
  | [] => ""
  | [(k, v)] => "'" ++ k ++ "': " ++ pyRepr v
  | (k, v) :: y :: rest => "'" ++ k ++ "': " ++ pyRepr v ++ ", " ++ pyReprFields (y :: rest)

end

/-- Python `str(v)` as used by the f-string on line 76. -/
def pyStr : JsonV → String
  | .null => "None"
  | .bool b => if b then "True" else "False"
  | .num n => toString n
  | .str s => s
  | .arr l => pyRepr (.arr l)
  | .obj l => pyRepr (.obj l)

/-- The record built by `parse_product` (lines 38–46).  The Python dict maps
the seven fixed keys to Python values; phase 1 can store arbitrary JSON
values in it, so the fields are `JsonV`, initialised to `""`. -/
structure ProductData where
  image : JsonV
  name : JsonV
  price : JsonV
  description : JsonV
  brand : JsonV
  category : JsonV
  weight : JsonV

/-- Lines 38–46: every field starts as the empty string. -/
def initData : ProductData :=
  { image := .str "", name := .str "", price := .str "", description := .str "",
    brand := .str "", category := .str "", weight := .str "" }

/-- The exceptions `parse_product` can actually raise (they escape the
function: the only `try` covers `json.loads`). -/
inductive PyErr where
  | attributeError
  | typeError

/-- Line 58: `obj.get("@type") in ["Product", "product"]`. -/
def isProductType : Option JsonV → Bool
  | some (.str s) => s = "Product" || s = "product"
  | _ => false

/-- A candidate object passes the guard of line 58 (`isinstance(obj, dict)`
and a matching `@type`). -/
def isProductObjB : JsonV → Bool
  | .obj fs => isProductType (jget fs "@type")
  | _ => false

/-- Line 59: `data["name"] = obj.get("name") or data["name"]`. -/
def stepName (fs : List (String × JsonV)) (d : ProductData) : ProductData :=
  { d with name := pyOr (jget fs "name") d.name }

/-- Lines 60–64: `image` from a non-empty list (first element) or a string. -/
def stepImage (fs : List (String × JsonV)) (d : ProductData) : ProductData :=
  match jget fs "image" with
  | some (.arr (x :: _)) => { d with image := x }
  | some (.str s) => { d with image := .str s }
  | _ => d

/-- Lines 65–69: `brand` from a dict's `name` or a scalar string. -/
def stepBrand (fs : List (String × JsonV)) (d : ProductData) : ProductData :=
  match jget fs "brand" with
  | some (.obj bfs) => { d with brand := pyOr (jget bfs "name") d.brand }
  | some (.str s) => { d with brand := .str s }
  | _ => d

/-- Lines 70–76: price from the offers object (first element if a list);
`price or highPrice or lowPrice`, composed with the currency and stripped. -/
def stepPrice (fs : List (String × JsonV)) (d : ProductData) : ProductData :=
  let offers0 := pyOr (jget fs "offers") (.obj [])
  let offers1 := match offers0 with
    | .arr (x :: _) => x
    | o => o
  match offers1 with
  | .obj ofs =>
    let price := pyOrO (jget ofs "price") (pyOrO (jget ofs "highPrice") (jget ofs "lowPrice"))
    let currency := pyOr (jget ofs "priceCurrency") (.str "")
    match price with
    | some pv =>
      if truthy pv then { d with price := .str (pyStripS (pyStr pv ++ " " ++ pyStr currency)) }
      else d
    | none => d
  | _ => d

/-- Line 77: `data["description"] = obj.get("description") or data["description"]`. -/
def stepDescription (fs : List (String × JsonV)) (d : ProductData) : ProductData :=
  { d with description := pyOr (jget fs "description") d.description }

/-- All elements of the list are Python `str`s (what `" / ".join` demands). -/
def allStr? : List JsonV → Option (List String)
  | [] => some []
  | .str s :: rest => (allStr? rest).map (s :: ·)
  | _ :: _ => none

/-- Lines 78–82: `category` from a list (joined with `" / "`, raising
`TypeError` on a non-string element exactly as `str.join` does) or a scalar
string. -/
def stepCategory (fs : List (String × JsonV)) (d : ProductData) : Except PyErr ProductData :=
  match pyOrO (jget fs "category") (jget fs "categoryName") with
  | some (.arr l) =>
    match allStr? l with
    | some ss => .ok { d with category := .str (String.intercalate " / " ss) }
    | none => .error .typeError
  | some (.str s) => .ok { d with category := .str s }
  | _ => .ok d

/-- Lines 86–89: one pass over `additionalProperty`.  `p.get` on a non-dict
entry raises `AttributeError`; so does `.lower()` when `p.get("name")` is a
truthy non-string.  No `break`: a later matching property overwrites the
weight taken from an earlier one. -/
def procAddp : List JsonV → ProductData → Except PyErr ProductData
  | [], d => .ok d
  | p :: rest, d =>
    match p with
    | .obj pfs =>
      match pyOr (jget pfs "name") (.str "") with
      | .str s =>
        let low := pyLowerS s
        let d' :=
          if strIn "ağırlık" low || strIn "weight" low then
            { d with weight := pyOr (jget pfs "value") (pyOr (jget pfs "unitCode") (.str "")) }
          else d
        procAddp rest d'
      | _ => .error .attributeError
    | _ => .error .attributeError

/-- Lines 83–89: `additionalProperty or additionalProperties`, scanned only
when it is a list. -/
def stepAddp (fs : List (String × JsonV)) (d : ProductData) : Except PyErr ProductData :=
  match pyOrO (jget fs "additionalProperty") (jget fs "additionalProperties") with
  | some (.arr l) => procAddp l d
  | _ => .ok d

/-- Lines 59–89: the body run for a matching Product object. -/
def processObj (fs : List (String × JsonV)) (d : ProductData) : Except PyErr ProductData :=
  let d1 := stepName fs d
  let d2 := stepImage fs d1
  let d3 := stepBrand fs d2
  let d4 := stepPrice fs d3
  let d5 := stepDescription fs d4
  match stepCategory fs d5 with
  | .error e => .error e
  | .ok d6 => stepAddp fs d6

/-- Lines 57–90: scan the candidates of one script block; the `break` on
line 90 stops this inner loop at the first matching object. -/
def processCandidates : List JsonV → ProductData → Except PyErr ProductData
  | [], d => .ok d
  | o :: rest, d =>
    match o with
    | .obj fs =>
      if isProductType (jget fs "@type") then processObj fs d
      else processCandidates rest d
    | _ => processCandidates rest d

/-- Line 56: `candidates = js if isinstance(js, list) else [js]`. -/
def candidates : JsonV → List JsonV
  | .arr l => l
  | v => [v]

/-- Lines 49–53: one script block; `none` models a block whose
`json.loads(tag.string.strip())` raised (skipped by `continue`). -/
def processBlock (b : Option JsonV) (d : ProductData) : Except PyErr ProductData :=
  match b with
  | none => .ok d
  | some js => processCandidates (candidates js) d

/-- Lines 49–90: the whole JSON-LD loop.  Note the outer loop continues
after the inner `break`, so every script block is visited. -/
def phase1 : List (Option JsonV) → ProductData → Except PyErr ProductData
  | [], d => .ok d
  | b :: rest, d =>
    match processBlock b d with
    | .error e => .error e
    | .ok d' => phase1 rest d'

/-- The results of the soup queries `parse_product` performs on the document.
Each field is the outcome of the corresponding BeautifulSoup call (an
external collaborator): `none` means the element (or attribute) is absent. -/
structure Doc where
  /-- Parsed contents of each `<script type="application/ld+json">` block,
  in document order; `none` marks a block `json.loads` rejects. -/
  ldJson : List (Option JsonV)
  /-- The `content` attribute of `<meta property="og:image">` (line 94). -/
  ogImage : Option String
  /-- Text `get_text(strip=True)` of the first `<h1>` (lines 99–101). -/
  h1Text : Option String
  /-- Text of `a.product-brand` (lines 105–107). -/
  brandText : Option String
  /-- Text of the first price-class element (lines 111–113). -/
  priceText : Option String
  /-- Text `get_text("\n", strip=True)` of the description box (lines 117–119). -/
  descText : Option String
  /-- Breadcrumb link texts (line 123). -/
  breadcrumbs : List String
  /-- Text `soup.get_text("\n", strip=True)` of the whole page (line 129). -/
  pageText : String

/-- Lines 93–96: Open-Graph image fallback (the `content` attribute must be
truthy, i.e. non-empty). -/
def fbImage (doc : Doc) (d : ProductData) : ProductData :=
  if truthy d.image then d
  else
    match doc.ogImage with
    | some s => if s = "" then d else { d with image := .str s }
    | none => d

/-- Lines 98–101: first `<h1>` fallback (set even when its text is empty). -/
def fbName (doc : Doc) (d : ProductData) : ProductData :=
  if truthy d.name then d
  else
    match doc.h1Text with
    | some s => { d with name := .str s }
    | none => d

/-- Lines 103–107: brand-class fallback. -/
def fbBrand (doc : Doc) (d : ProductData) : ProductData :=
  if truthy d.brand then d
  else
    match doc.brandText with
    | some s => { d with brand := .str s }
    | none => d

/-- Lines 109–113: price-class fallback. -/
def fbPrice (doc : Doc) (d : ProductData) : ProductData :=
  if truthy d.price then d
  else
    match doc.priceText with
    | some s => { d with price := .str s }
    | none => d

/-- Lines 115–119: description-container fallback. -/
def fbDescription (doc : Doc) (d : ProductData) : ProductData :=
  if truthy d.description then d
  else
    match doc.descText with
    | some s => { d with description := .str s }
    | none => d

/-- Lines 121–125: breadcrumb fallback, joined with `" / "`. -/
def fbCategory (doc : Doc) (d : ProductData) : ProductData :=
  if truthy d.category then d
  else if doc.breadcrumbs.isEmpty then d
  else { d with category := .str (String.intercalate " / " doc.breadcrumbs) }

/-- Character class `[0-9.,]` of the weight regexes. -/
def isNumC (c : Char) : Bool := c.isDigit || c = '.' || c = ','

/-- Character comparison under `re.I` (both sides lowered, matching
CPython's simple case folding on the characters involved). -/
def foldEq (a b : Char) : Bool := pyLower a = pyLower b

/-- Match a literal (case-insensitively) at the head of `cs`, returning the
consumed original characters and the rest. -/
def litAt : List Char → List Char → Option (List Char × List Char)
  | [], cs => some ([], cs)
  | _ :: _, [] => none
  | p :: ps, c :: cs =>
    if foldEq p c then (litAt ps cs).map (fun pr => (c :: pr.1, pr.2))
    else none

/-- Units `(?:kg|g|gr)` at the end of pattern 1: alternatives tried in order, the
first that matches wins (nothing follows it in the pattern). -/
def unit1 (cs : List Char) : Option (List Char) :=
  ((litAt ['k', 'g'] cs).orElse fun _ =>
    (litAt ['g'] cs).orElse fun _ =>
      litAt ['g', 'r'] cs).map Prod.fst

/-- Pattern 1, `Ağırlık[: ]+([0-9.,]+\s?(?:kg|g|gr))` with `re.I`, matched at
the start of `cs`; returns group 1.  The greedy `[: ]+` and `[0-9.,]+` are
taken maximal: the classes are disjoint from every character that can follow
them, so the backtracking engine's answer coincides. -/
def matchW1At (cs : List Char) : Option String :=
  match litAt ['A', 'ğ', 'ı', 'r', 'l', 'ı', 'k'] cs with
  | none => none
  | some (_, r0) =>
    let sep := List.span (fun c => c = ':' || c = ' ') r0
    if sep.1.isEmpty then none
    else
      let num := List.span isNumC sep.2
      if num.1.isEmpty then none
      else
        -- `\s?` is greedy: first try consuming one whitespace character.
        let withSp : Option (List Char) :=
          match num.2 with
          | c :: r3 => if isWs c then (unit1 r3).map (fun u => num.1 ++ c :: u) else none
          | [] => none
        match withSp with
        | some g => some (String.mk g)
        | none => (unit1 num.2).map (fun u => String.mk (num.1 ++ u))

/-- Tail `\s+ağırlık` of pattern 2 (greedy `\s+` is maximal: `a` is
not whitespace). -/
def tailW2 (cs : List Char) : Bool :=
  let sp := List.span isWs cs
  !sp.1.isEmpty && (litAt ['a', 'ğ', 'ı', 'r', 'l', 'ı', 'k'] sp.2).isSome

/-- One unit alternative of pattern 2 followed by the tail. -/
def altW2 (pat : List Char) (cs : List Char) : Option (List Char) :=
  match litAt pat cs with
  | some (u, r) => if tailW2 r then some u else none
  | none => none

/-- Units `(?:kg|g|gr)` followed by the tail: alternatives in order, each must let the tail
match (the engine backtracks from `g` to `gr` when `\s+` fails). -/
def unitTail2 (cs : List Char) : Option (List Char) :=
  (altW2 ['k', 'g'] cs).orElse fun _ =>
    (altW2 ['g'] cs).orElse fun _ =>
      altW2 ['g', 'r'] cs

/-- Pattern 2, `([0-9.,]+\s?(?:kg|g|gr))\s+ağırlık` with `re.I`, matched at
the start of `cs`; returns group 1. -/
def matchW2At (cs : List Char) : Option String :=
  let num := List.span isNumC cs
  if num.1.isEmpty then none
  else
    let withSp : Option (List Char) :=
      match num.2 with
      | c :: r2 => if isWs c then (unitTail2 r2).map (fun u => num.1 ++ c :: u) else none
      | [] => none
    match withSp with
    | some g => some (String.mk g)
    | none => (unitTail2 num.2).map (fun u => String.mk (num.1 ++ u))

/-- Search `re.search`: try the pattern at each position, leftmost first. -/
def searchAt (f : List Char → Option String) : List Char → Option String
  | [] => f []
  | c :: cs =>
    match f (c :: cs) with
    | some r => some r
    | none => searchAt f cs

/-- Lines 131–135: the first pattern, then the reversed one. -/
def searchWeight (text : String) : Option String :=
  match searchAt matchW1At text.toList with
  | some w => some w
  | none => searchAt matchW2At text.toList

/-- Lines 127–135: weight regex fallback over the page text. -/
def fbWeight (doc : Doc) (d : ProductData) : ProductData :=
  if truthy d.weight then d
  else
    match searchWeight doc.pageText with
    | some w => { d with weight := .str w }
    | none => d

/-- Lines 92–135: the per-field fallbacks, in source order. -/
def phase2 (doc : Doc) (d : ProductData) : ProductData :=
  fbWeight doc (fbCategory doc (fbDescription doc (fbPrice doc
    (fbBrand doc (fbName doc (fbImage doc d))))))

/-- Lines 138–140: only values that are Python `str`s are normalized. -/
def normVal : JsonV → JsonV
  | .str s => .str (pyNormalize s)
  | v => v

/-- Lines 137–141: the whitespace post-processing pass. -/
def normalizeData (d : ProductData) : ProductData :=
  { image := normVal d.image, name := normVal d.name, price := normVal d.price,
    description := normVal d.description, brand := normVal d.brand,
    category := normVal d.category, weight := normVal d.weight }

/-- Lines 36–142: `parse_product`.  An exception from phase 1 escapes the
function (the only `try` covers `json.loads`). -/
def parse_product (doc : Doc) : Except PyErr ProductData :=
  match phase1 doc.ldJson initData with
  | .error e => .error e
  | .ok d => .ok (normalizeData (phase2 doc d))

/-- The translation provider (`GoogleTranslator.translate`, an external
collaborator): `some` is the translated string, `none` models a raised
exception. -/
def Tr : Type := JsonV → Option String

/-- Lines 17–24: the adapter `t`.  Falsy input returns `""` without calling
the provider (the result does not depend on `tr` at all); otherwise the
provider's answer is returned, or the original input unchanged when the
provider raises. -/
def t (tr : Tr) (v : JsonV) : JsonV :=
  if truthy v then
    match tr v with
    | some r => .str r
    | none => v
  else .str ""

/-- The outcome of `fetch(url)` (lines 26–34, an external HTTP call):
either the document, or `httpx.HTTPStatusError` with the response's status
code, or any other exception with its rendered description. -/
inductive FetchResult where
  | ok : Doc → FetchResult
  | statusError : Nat → FetchResult
  | otherError : String → FetchResult

/-- The Python `str(e)` rendering of an exception escaping `parse_product`
(abstracted to the exception's class name). -/
def errMsg : PyErr → String
  | .attributeError => "AttributeError"
  | .typeError => "TypeError"

/-- What the handler hands to the template: an error message or a result
record (lines 150–151, 171). -/
structure Response where
  error : Option String
  result : Option ProductData

/-- Lines 148–171: the `/extract` handler.  `price` and `weight` (and
`image`, line 158) are copied verbatim; `name`, `description`, `brand` and
`category` go through `t`.  `httpx.HTTPStatusError` and any other exception
(including one escaping `parse_product`) are caught and rendered. -/
def extractHandler (tr : Tr) (fr : FetchResult) : Response :=
  match fr with
  | .ok doc =>
    match parse_product doc with
    | .ok p =>
      { error := none,
        result := some
          { image := p.image,
            name := t tr p.name,
            price := p.price,
            description := t tr p.description,
            brand := t tr p.brand,
            category := t tr p.category,
            weight := p.weight } }
    | .error e => { error := some ("Unexpected error: " ++ errMsg e), result := none }
  | .statusError c => { error := some ("HTTP error: " ++ toString c), result := none }
  | .otherError m => { error := some ("Unexpected error: " ++ m), result := none }

/-! ### Auxiliary definitions used by the statements -/

/-- A document on which every soup query comes back empty. -/
def emptyDoc : Doc :=
  { ldJson := [], ogImage := none, h1Text := none, brandText := none,
    priceText := none, descText := none, breadcrumbs := [], pageText := "" }

/-- The seven attributes of the record, for quantifying over fields. -/
inductive Field where
  | image
  | name
  | price
  | description
  | brand
  | category
  | weight

/-- Projection of a `ProductData` field. -/
def getF : Field → ProductData → JsonV
  | .image, d => d.image
  | .name, d => d.name
  | .price, d => d.price
  | .description, d => d.description
  | .brand, d => d.brand
  | .category, d => d.category
  | .weight, d => d.weight

/-- Is the value a Python `str`? -/
def isStrV : JsonV → Bool
  | .str _ => true
  | _ => false

/-- No whitespace at the head. -/
def headOk : List Char → Bool
  | [] => true
  | c :: _ => !isWs c

/-- No whitespace at the last position. -/
def lastOk : List Char → Bool
  | [] => true
  | [c] => !isWs c
  | _ :: c :: rest => lastOk (c :: rest)

/-- No two adjacent whitespace characters. -/
def noAdjWs : List Char → Bool
  | [] => true
  | c :: cs => (!isWs c || headOk cs) && noAdjWs cs

/-- Every whitespace character is a plain space. -/
def wsOnlySp (l : List Char) : Bool := l.all fun c => !isWs c || c = ' '

/-- The string is whitespace-normalized and trimmed: internal whitespace
runs are single spaces and neither end carries whitespace. -/
def normStr (s : String) : Bool :=
  wsOnlySp s.toList && noAdjWs s.toList && headOk s.toList && lastOk s.toList

/-- An `additionalProperty` entry the loop of lines 86–89 survives: a dict
whose `name` (after `or ""`) is a string. -/
def addpEntrySafe : JsonV → Bool
  | .obj pfs =>
    match pyOr (jget pfs "name") (.str "") with
    | .str _ => true
    | _ => false
  | _ => false

/-- A Product object on which the body of lines 59–89 raises nothing:
category arrays hold only strings and `additionalProperty` lists hold only
safe entries. -/
def objSafe (fs : List (String × JsonV)) : Bool :=
  (match pyOrO (jget fs "category") (jget fs "categoryName") with
   | some (.arr l) => (allStr? l).isSome
   | _ => true) &&
  (match pyOrO (jget fs "additionalProperty") (jget fs "additionalProperties") with
   | some (.arr l) => l.all addpEntrySafe
   | _ => true)

/-- Safety of one candidate object: only matching Product dicts can raise. -/
def productSafe : JsonV → Bool
  | .obj fs => !isProductType (jget fs "@type") || objSafe fs
  | _ => true

/-- Safety of one script block. -/
def blockSafe : Option JsonV → Bool
  | none => true
  | some js => (candidates js).all productSafe

/-- Safety of a whole document's structured data. -/
def docSafe (doc : Doc) : Bool := doc.ldJson.all blockSafe

/-- No candidate of the block passes the guard of line 58. -/
def blockNoMatch : Option JsonV → Bool
  | none => true
  | some js => (candidates js).all fun o => !isProductObjB o

/-- A document whose single JSON-LD block is an object carrying just a
`@type` and a `name`. -/
def typeNameDoc (ty nm : String) : Doc :=
  { emptyDoc with ldJson := [some (.obj [("@type", .str ty), ("name", .str nm)])] }

/-- Product block whose `additionalProperty` list holds a bare string — the
shape on which line 87 (`p.get`) raises. -/
def cexDocC1 : Doc :=
  { emptyDoc with
    ldJson := [some (.obj [("@type", .str "Product"), ("additionalProperty", .arr [.str "x"])])] }

/-- A rich, safe product document: structured data plus every fallback. -/
def fullDoc : Doc :=
  { ldJson :=
      [some (.str "not a dict"),
       none,
       some (.obj
        [("@type", .str "Product"),
         ("name", .str "  Çelik  Tencere "),
         ("image", .arr [.str "http://img/1.jpg", .str "http://img/2.jpg"]),
         ("brand", .obj [("name", .str "Karaca")]),
         ("offers", .arr [.obj [("price", .str "449.90"), ("priceCurrency", .str "TRY")]]),
         ("description", .str "Dayanıklı çelik tencere"),
         ("category", .arr [.str "Mutfak", .str "Tencere"]),
         ("additionalProperty",
          .arr [.obj [("name", .str "Renk"), ("value", .str "Gri")],
                .obj [("name", .str "Ağırlık"), ("value", .str "1.2 kg")]])])],
    ogImage := some "http://img/og.jpg",
    h1Text := some "Başlık",
    brandText := some "BaşkaMarka",
    priceText := some "999 TL",
    descText := some "kutu açıklama",
    breadcrumbs := ["Ev", "Mutfak"],
    pageText := "Ağırlık: 9 kg" }

/-- Product block whose `name` is the JSON number `5`. -/
def cexDocC2 : Doc :=
  { emptyDoc with ldJson := [some (.obj [("@type", .str "Product"), ("name", .num 5)])] }

/-- Whitespace-laden structured name, for the C2 witness. -/
def docC2w : Doc :=
  { emptyDoc with ldJson := [some (.obj [("@type", .str "Product"), ("name", .str "  a  b ")])] }

/-- Two script blocks, each with its own Product image. -/
def cexDocC3 : Doc :=
  { emptyDoc with
    ldJson := [some (.obj [("@type", .str "Product"), ("image", .str "A")]),
               some (.obj [("@type", .str "Product"), ("image", .str "B")])] }

/-- The first of the two blocks of `cexDocC3` alone. -/
def cexDocC3a : Doc :=
  { emptyDoc with ldJson := [some (.obj [("@type", .str "Product"), ("image", .str "A")])] }

/-- Product document with an image and a name, for the handler claims. -/
def docC4 : Doc :=
  { emptyDoc with
    ldJson := [some (.obj [("@type", .str "Product"), ("image", .str "IMG"), ("name", .str "NM")])] }

/-- Structured name plus an `<h1>` fallback that would also match. -/
def docC6 : Doc :=
  { emptyDoc with
    ldJson := [some (.obj [("@type", .str "Product"), ("name", .str "Yapısal Ad")])],
    h1Text := some "Sayfa Başlığı" }

/-- Page text containing `Ağırlık: 350 g`, no structured data. -/
def docW1 : Doc :=
  { emptyDoc with pageText := "Ürün Detayları\nAğırlık: 350 g\nRenk: Mavi" }

/-- Page text containing `350 gr ağırlık`, no structured data. -/
def docW2 : Doc :=
  { emptyDoc with pageText := "Bu ürün 350 gr ağırlık ile gelir" }

/-- JSON-LD object whose `@type` is the array `["Product", "Thing"]`. -/
def docC10 : Doc :=
  { emptyDoc with
    ldJson := [some (.obj [("@type", .arr [.str "Product", .str "Thing"]), ("name", .str "N")])] }

/-! ## Lemmas about the whitespace post-processing -/

theorem wsOnlySp_cons (c : Char) (l : List Char) :
    wsOnlySp (c :: l) = ((!isWs c || c = ' ') && wsOnlySp l) := rfl

theorem wsOnlySp_collapseGo (l : List Char) : ∀ b, wsOnlySp (collapseGo b l) = true := by
  induction l with
  | nil => intro b; rfl
  | cons c cs ih =>
    intro b
    by_cases h : isWs c = true
    · cases b
      · simp [collapseGo, h, wsOnlySp_cons, ih true]
      · simp [collapseGo, h, ih true]
    · simp [collapseGo, h, wsOnlySp_cons, ih false]

theorem headOk_collapseGo (l : List Char) : headOk (collapseGo true l) = true := by
  induction l with
  | nil => rfl
  | cons c cs ih =>
    by_cases h : isWs c = true
    · simp only [collapseGo, h, if_true]
      exact ih
    · simp [collapseGo, h, headOk]

theorem noAdjWs_collapseGo (l : List Char) : ∀ b, noAdjWs (collapseGo b l) = true := by
  induction l with
  | nil => intro b; rfl
  | cons c cs ih =>
    intro b
    by_cases h : isWs c = true
    · cases b
      · simp [collapseGo, h, noAdjWs, headOk_collapseGo, ih true]
      · simp [collapseGo, h, ih true]
    · simp [collapseGo, h, noAdjWs, ih false]

theorem wsOnlySp_dropWhile (l : List Char) (h : wsOnlySp l = true) :
    wsOnlySp (l.dropWhile isWs) = true := by
  induction l with
  | nil => exact h
  | cons c cs ih =>
    rw [wsOnlySp_cons, Bool.and_eq_true] at h
    by_cases hc : isWs c = true
    · rw [List.dropWhile_cons, if_pos hc]
      exact ih h.2
    · rw [List.dropWhile_cons, if_neg hc, wsOnlySp_cons, Bool.and_eq_true]
      exact h

theorem noAdjWs_dropWhile (l : List Char) (h : noAdjWs l = true) :
    noAdjWs (l.dropWhile isWs) = true := by
  induction l with
  | nil => exact h
  | cons c cs ih =>
    rw [show noAdjWs (c :: cs) = ((!isWs c || headOk cs) && noAdjWs cs) from rfl,
      Bool.and_eq_true] at h
    by_cases hc : isWs c = true
    · rw [List.dropWhile_cons, if_pos hc]
      exact ih h.2
    · rw [List.dropWhile_cons, if_neg hc,
        show noAdjWs (c :: cs) = ((!isWs c || headOk cs) && noAdjWs cs) from rfl,
        Bool.and_eq_true]
      exact h

theorem headOk_dropWhile (l : List Char) : headOk (l.dropWhile isWs) = true := by
  induction l with
  | nil => rfl
  | cons c cs ih =>
    by_cases hc : isWs c = true
    · rw [List.dropWhile_cons, if_pos hc]
      exact ih
    · rw [List.dropWhile_cons, if_neg hc]
      simp [headOk, hc]

theorem lastOk_dropWhile (l : List Char) (h : lastOk l = true) :
    lastOk (l.dropWhile isWs) = true := by
  induction l with
  | nil => exact h
  | cons c cs ih =>
    by_cases hc : isWs c = true
    · cases cs with
      | nil => simp [lastOk, hc] at h
      | cons b bs =>
        rw [List.dropWhile_cons, if_pos hc]
        exact ih (by simpa [lastOk] using h)
    · rw [List.dropWhile_cons, if_neg hc]
      exact h

theorem lastOk_concat (l : List Char) (c : Char) : lastOk (l ++ [c]) = !isWs c := by
  induction l with
  | nil => rfl
  | cons a as ih =>
    cases as with
    | nil => rfl
    | cons b bs =>
      simpa [lastOk] using ih

theorem headOk_reverse (l : List Char) : headOk l.reverse = lastOk l := by
  induction l with
  | nil => rfl
  | cons c cs ih =>
    cases cs with
    | nil => simp [headOk, lastOk]
    | cons b bs =>
      rw [List.reverse_cons]
      have hne : (b :: bs).reverse ≠ [] := by simp
      cases hrv : (b :: bs).reverse with
      | nil => exact absurd hrv hne
      | cons x xs =>
        have : headOk ((x :: xs) ++ [c]) = headOk (x :: xs) := rfl
        rw [this, ← hrv, ih]
        rfl

theorem lastOk_reverse (l : List Char) : lastOk l.reverse = headOk l := by
  have := headOk_reverse l.reverse
  rw [List.reverse_reverse] at this
  exact this.symm

theorem noAdjWs_concat (l : List Char) (c : Char) :
    noAdjWs (l ++ [c]) = (noAdjWs l && (lastOk l || !isWs c)) := by
  induction l with
  | nil => simp [noAdjWs, headOk, lastOk]
  | cons a as ih =>
    cases as with
    | nil =>
      cases ha : isWs a <;> cases hc : isWs c <;>
        simp [noAdjWs, headOk, lastOk, ha, hc]
    | cons b bs =>
      have h1 : noAdjWs ((a :: b :: bs) ++ [c]) =
          ((!isWs a || headOk (b :: bs)) && noAdjWs ((b :: bs) ++ [c])) := rfl
      have h2 : lastOk (a :: b :: bs) = lastOk (b :: bs) := rfl
      rw [h1, ih, h2,
        show noAdjWs (a :: b :: bs) = ((!isWs a || headOk (b :: bs)) && noAdjWs (b :: bs))
          from rfl, Bool.and_assoc]

theorem noAdjWs_reverse (l : List Char) : noAdjWs l.reverse = noAdjWs l := by
  induction l with
  | nil => rfl
  | cons c cs ih =>
    rw [List.reverse_cons, noAdjWs_concat, ih, lastOk_reverse]
    rw [show noAdjWs (c :: cs) = ((!isWs c || headOk cs) && noAdjWs cs) from rfl]
    rw [Bool.and_comm, Bool.or_comm]

theorem wsOnlySp_reverse (l : List Char) : wsOnlySp l.reverse = wsOnlySp l := by
  unfold wsOnlySp
  exact List.all_reverse

/-- The output of the line-140 post-processing is whitespace-normalized and
trimmed. -/
theorem normStr_pyNormalize (s : String) : normStr (pyNormalize s) = true := by
  unfold pyNormalize pyStripL collapseWsL normStr
  have htl : ∀ l : List Char, (String.mk l).toList = l := fun _ => rfl
  rw [htl]
  have h0s : wsOnlySp (collapseGo false s.toList) = true := wsOnlySp_collapseGo _ _
  have h0a : noAdjWs (collapseGo false s.toList) = true := noAdjWs_collapseGo _ _
  have h1s := wsOnlySp_dropWhile _ h0s
  have h1a := noAdjWs_dropWhile _ h0a
  have h1h := headOk_dropWhile (collapseGo false s.toList)
  set m1 := (collapseGo false s.toList).dropWhile isWs with hm1
  have h2s : wsOnlySp m1.reverse = true := by rw [wsOnlySp_reverse]; exact h1s
  have h2a : noAdjWs m1.reverse = true := by rw [noAdjWs_reverse]; exact h1a
  have h2l : lastOk m1.reverse = true := by rw [lastOk_reverse]; exact h1h
  have h3s := wsOnlySp_dropWhile _ h2s
  have h3a := noAdjWs_dropWhile _ h2a
  have h3h := headOk_dropWhile m1.reverse
  have h3l := lastOk_dropWhile _ h2l
  set m3 := m1.reverse.dropWhile isWs with hm3
  rw [wsOnlySp_reverse, noAdjWs_reverse, headOk_reverse, lastOk_reverse]
  simp [h3s, h3a, h3h, h3l]

/-! ## C2 — type and normalization of the returned attributes -/

theorem getF_normalizeData (f : Field) (d : ProductData) :
    getF f (normalizeData d) = normVal (getF f d) := by
  cases f <;> rfl

theorem normVal_str_inv (v : JsonV) (s : String) (h : normVal v = .str s) :
    ∃ s0, s = pyNormalize s0 := by
  cases v <;> simp [normVal] at h
  exact ⟨_, h.symm⟩

/-- Claim C2 (amended): every attribute of the returned record that is a
string is whitespace-normalized (runs collapsed to one space) and trimmed;
however, non-string JSON values injected by phase 1 are returned as-is, so
not every attribute is a string. -/
theorem C2_theorem : ∀ (doc : Doc) (r : ProductData) (f : Field) (s : String),
    parse_product doc = .ok r → getF f r = .str s → normStr s = true := by
  intro doc r f s hp hf
  unfold parse_product at hp
  cases h1 : phase1 doc.ldJson initData with
  | error e => rw [h1] at hp; cases hp
  | ok d =>
    rw [h1] at hp
    injection hp with hp
    subst hp
    rw [getF_normalizeData] at hf
    obtain ⟨s0, rfl⟩ := normVal_str_inv _ _ hf
    exact normStr_pyNormalize s0

/-- Claim C2 counterexample: a Product block with `"name": 5` makes
`parse_product` return a record whose `name` attribute is the number `5`,
not a string. -/
theorem C2_cex : parse_product cexDocC2 = .ok { initData with name := .num 5 } ∧
    isStrV (getF .name { initData with name := .num 5 }) = false :=
  ⟨rfl, rfl⟩

/-- Witness for C2: a concrete run whose extracted name `"  a  b "` is
returned as the normalized string `"a b"`. -/
theorem C2_witness : parse_product docC2w = .ok { initData with name := .str "a b" } ∧
    normStr "a b" = true :=
  ⟨rfl, C2_theorem docC2w { initData with name := .str "a b" } .name "a b" rfl rfl⟩

/-! ## C7 — the weight regex test vectors -/

/-- Claim C7: a document with no structured data whose page text contains
`"Ağırlık: 350 g"` yields `weight = "350 g"`, and one containing
`"350 gr ağırlık"` yields the non-empty `"350 gr"` via the reversed
value-before-keyword pattern. -/
theorem C7_theorem :
    parse_product docW1 = .ok { initData with weight := .str "350 g" } ∧
    parse_product docW2 = .ok { initData with weight := .str "350 gr" } ∧
    ("350 gr" : String) ≠ "" :=
  ⟨rfl, rfl, by decide⟩

/-! ## C1 — exceptions of `parse_product` -/

theorem procAddp_ok (l : List JsonV) : ∀ (d : ProductData),
    l.all addpEntrySafe = true → ∃ d', procAddp l d = .ok d' := by
  induction l with
  | nil => intro d _; exact ⟨d, rfl⟩
  | cons p rest ih =>
    intro d h
    rw [List.all_cons, Bool.and_eq_true] at h
    obtain ⟨hp, hrest⟩ := h
    cases p with
    | obj pfs =>
      cases hname : pyOr (jget pfs "name") (.str "") with
      | str s =>
        simp only [procAddp, hname]
        exact ih _ hrest
      | null => simp [addpEntrySafe, hname] at hp
      | bool b => simp [addpEntrySafe, hname] at hp
      | num n => simp [addpEntrySafe, hname] at hp
      | arr a => simp [addpEntrySafe, hname] at hp
      | obj o => simp [addpEntrySafe, hname] at hp
    | null => simp [addpEntrySafe] at hp
    | bool b => simp [addpEntrySafe] at hp
    | num n => simp [addpEntrySafe] at hp
    | str s => simp [addpEntrySafe] at hp
    | arr a => simp [addpEntrySafe] at hp

theorem stepCategory_ok (fs : List (String × JsonV)) (d : ProductData)
    (h : objSafe fs = true) : ∃ d', stepCategory fs d = .ok d' := by
  unfold objSafe at h
  rw [Bool.and_eq_true] at h
  obtain ⟨h1, _⟩ := h
  unfold stepCategory
  cases hc : pyOrO (jget fs "category") (jget fs "categoryName") with
  | none => exact ⟨d, rfl⟩
  | some v =>
    cases v with
    | arr l =>
      rw [hc] at h1
      dsimp only at h1 ⊢
      obtain ⟨ss, hss⟩ := Option.isSome_iff_exists.mp h1
      rw [hss]
      exact ⟨_, rfl⟩
    | str s => exact ⟨_, rfl⟩
    | null => exact ⟨d, rfl⟩
    | bool b => exact ⟨d, rfl⟩
    | num n => exact ⟨d, rfl⟩
    | obj o => exact ⟨d, rfl⟩

theorem stepAddp_ok (fs : List (String × JsonV)) (d : ProductData)
    (h : objSafe fs = true) : ∃ d', stepAddp fs d = .ok d' := by
  unfold objSafe at h
  rw [Bool.and_eq_true] at h
  obtain ⟨_, h2⟩ := h
  unfold stepAddp
  cases hc : pyOrO (jget fs "additionalProperty") (jget fs "additionalProperties") with
  | none => exact ⟨d, rfl⟩
  | some v =>
    cases v with
    | arr l =>
      rw [hc] at h2
      exact procAddp_ok l d h2
    | str s => exact ⟨d, rfl⟩
    | null => exact ⟨d, rfl⟩
    | bool b => exact ⟨d, rfl⟩
    | num n => exact ⟨d, rfl⟩
    | obj o => exact ⟨d, rfl⟩

theorem processObj_ok (fs : List (String × JsonV)) (d : ProductData)
    (h : objSafe fs = true) : ∃ d', processObj fs d = .ok d' := by
  unfold processObj
  dsimp only
  obtain ⟨d6, h6⟩ :=
    stepCategory_ok fs (stepDescription fs (stepPrice fs (stepBrand fs (stepImage fs (stepName fs d))))) h
  rw [h6]
  exact stepAddp_ok fs d6 h

theorem processCandidates_ok (l : List JsonV) : ∀ (d : ProductData),
    (∀ o ∈ l, productSafe o = true) → ∃ d', processCandidates l d = .ok d' := by
  induction l with
  | nil => intro d _; exact ⟨d, rfl⟩
  | cons o rest ih =>
    intro d h
    have ho := h o (List.mem_cons_self o rest)
    have hrest : ∀ x ∈ rest, productSafe x = true := fun x hx => h x (List.mem_cons_of_mem _ hx)
    cases o with
    | obj fs =>
      unfold processCandidates
      dsimp only
      by_cases ht : isProductType (jget fs "@type") = true
      · rw [if_pos ht]
        apply processObj_ok
        unfold productSafe at ho
        dsimp only at ho
        rw [ht] at ho
        simpa using ho
      · rw [if_neg ht]
        exact ih d hrest
    | null => exact ih d hrest
    | bool b => exact ih d hrest
    | num n => exact ih d hrest
    | str s => exact ih d hrest
    | arr a => exact ih d hrest

theorem processBlock_ok (b : Option JsonV) (d : ProductData)
    (h : blockSafe b = true) : ∃ d', processBlock b d = .ok d' := by
  cases b with
  | none => exact ⟨d, rfl⟩
  | some js =>
    unfold blockSafe at h
    exact processCandidates_ok (candidates js) d (List.all_eq_true.mp h)

theorem phase1_ok (bs : List (Option JsonV)) : ∀ (d : ProductData),
    (∀ b ∈ bs, blockSafe b = true) → ∃ d', phase1 bs d = .ok d' := by
  induction bs with
  | nil => intro d _; exact ⟨d, rfl⟩
  | cons b rest ih =>
    intro d h
    obtain ⟨d1, h1⟩ := processBlock_ok b d (h b (List.mem_cons_self b rest))
    unfold phase1
    rw [h1]
    exact ih d1 (fun x hx => h x (List.mem_cons_of_mem _ hx))

/-- Claim C1 (amended): `parse_product` never raises for malformed HTML or
malformed JSON-LD blocks, and tolerates shape mismatches guarded by
`isinstance` checks; but a Product object whose `additionalProperty` list
holds a non-dict entry (or one whose property `name` is a truthy
non-string) raises AttributeError, and a category array with a non-string
element raises TypeError.  Under the `docSafe` guard excluding exactly those
shapes, extraction always returns a record. -/
theorem C1_theorem : ∀ (doc : Doc), docSafe doc = true →
    ∃ r, parse_product doc = .ok r := by
  intro doc h
  unfold docSafe at h
  obtain ⟨d, hd⟩ := phase1_ok doc.ldJson initData (List.all_eq_true.mp h)
  refine ⟨normalizeData (phase2 doc d), ?_⟩
  unfold parse_product
  rw [hd]

/-- Claim C1 counterexample: a well-formed document whose Product block has
`"additionalProperty": ["x"]` (a shape the claim explicitly covers) makes
`parse_product` raise AttributeError instead of returning a record. -/
theorem C1_cex : parse_product cexDocC1 = .error .attributeError := rfl

/-- Witness for C1: a rich, safe document (malformed entries, non-dict
blocks, every field populated) on which extraction succeeds. -/
theorem C1_witness : docSafe fullDoc = true ∧ ∃ r, parse_product fullDoc = .ok r :=
  ⟨rfl, C1_theorem fullDoc rfl⟩

/-! ## C3 — priority across candidate objects and script blocks -/

/-- Claim C3 counterexample: with two Product script blocks, the image of
the *second* block ends up in the record — the scan does not stop at the
first matching object across blocks, and later blocks do override. -/
theorem C3_cex :
    parse_product cexDocC3a = .ok { initData with image := .str "A" } ∧
    parse_product cexDocC3 = .ok { initData with image := .str "B" } :=
  ⟨rfl, rfl⟩

/-- Claim C3 (amended): within one script block the candidate scan stops at
the first Product-typed object (the `break`), skipping candidates before it
and ignoring those after it; but the outer loop continues over later script
blocks, and a Product object in a later block is processed as well and can
override values taken from an earlier block. -/
theorem C3_theorem : ∀ (xs : List JsonV) (ys : List JsonV) (fs : List (String × JsonV))
    (d : ProductData), (∀ o ∈ xs, isProductObjB o = false) →
    isProductType (jget fs "@type") = true →
    processCandidates (xs ++ .obj fs :: ys) d = processObj fs d := by
  intro xs
  induction xs with
  | nil =>
    intro ys fs d _ ht
    rw [List.nil_append]
    unfold processCandidates
    dsimp only
    rw [if_pos ht]
  | cons o rest ih =>
    intro ys fs d h ht
    have ho := h o (List.mem_cons_self o rest)
    have hrest : ∀ x ∈ rest, isProductObjB x = false :=
      fun x hx => h x (List.mem_cons_of_mem _ hx)
    rw [List.cons_append]
    cases o with
    | obj gs =>
      have hg : isProductType (jget gs "@type") = false := by
        simpa [isProductObjB] using ho
      unfold processCandidates
      dsimp only
      rw [hg]
      simp only [Bool.false_eq_true, if_false]
      exact ih ys fs d hrest ht
    | null => exact ih ys fs d hrest ht
    | bool b => exact ih ys fs d hrest ht
    | num n => exact ih ys fs d hrest ht
    | str s => exact ih ys fs d hrest ht
    | arr a => exact ih ys fs d hrest ht

/-- Witness for C3: a junk candidate, then a first Product, then a second
Product in the same block — only the first Product is processed. -/
theorem C3_witness :
    processCandidates
      ([.str "junk"] ++
        .obj [("@type", .str "Product"), ("name", .str "First")] ::
          [.obj [("@type", .str "Product"), ("name", .str "Second")]]) initData =
      processObj [("@type", .str "Product"), ("name", .str "First")] initData :=
  C3_theorem [.str "junk"] [.obj [("@type", .str "Product"), ("name", .str "Second")]]
    [("@type", .str "Product"), ("name", .str "First")] initData
    (by intro o ho; rw [List.mem_singleton] at ho; subst ho; rfl) rfl

/-! ## C9 — the translator adapter never propagates an error -/

/-- Claim C9: for every input string, if the provider raises then `t`
returns the original input unchanged; and for empty (or absent, i.e.
`None`) input, `t` returns `""` without invoking the provider — the result
is the same for every provider. -/
theorem C9_theorem : ∀ (tr : Tr) (s : String),
    (tr (.str s) = none → t tr (.str s) = .str s) ∧
    t tr (.str "") = .str "" ∧ t tr .null = .str "" := by
  intro tr s
  refine ⟨?_, rfl, rfl⟩
  intro hn
  by_cases hs : s = ""
  · subst hs; rfl
  · unfold t
    rw [if_pos (by simpa [truthy] using hs), hn]

/-- Witness for C9: a throwing provider leaves `"merhaba"` unchanged. -/
theorem C9_witness : t (fun _ => none) (.str "merhaba") = .str "merhaba" :=
  (C9_theorem (fun _ => none) "merhaba").1 rfl

/-! ## C10 — non-matching `@type` values extract nothing in phase 1 -/

theorem processCandidates_skip (l : List JsonV) : ∀ (d : ProductData),
    (∀ o ∈ l, isProductObjB o = false) → processCandidates l d = .ok d := by
  induction l with
  | nil => intro d _; rfl
  | cons o rest ih =>
    intro d h
    have ho := h o (List.mem_cons_self o rest)
    have hrest : ∀ x ∈ rest, isProductObjB x = false :=
      fun x hx => h x (List.mem_cons_of_mem _ hx)
    cases o with
    | obj gs =>
      have hg : isProductType (jget gs "@type") = false := by
        simpa [isProductObjB] using ho
      unfold processCandidates
      dsimp only
      rw [hg]
      simp only [Bool.false_eq_true, if_false]
      exact ih d hrest
    | null => exact ih d hrest
    | bool b => exact ih d hrest
    | num n => exact ih d hrest
    | str s => exact ih d hrest
    | arr a => exact ih d hrest

theorem phase1_skip (bs : List (Option JsonV)) : ∀ (d : ProductData),
    (∀ b ∈ bs, blockNoMatch b = true) → phase1 bs d = .ok d := by
  induction bs with
  | nil => intro d _; rfl
  | cons b rest ih =>
    intro d h
    have hb := h b (List.mem_cons_self b rest)
    have hrest : ∀ x ∈ rest, blockNoMatch x = true :=
      fun x hx => h x (List.mem_cons_of_mem _ hx)
    unfold phase1
    have hblk : processBlock b d = .ok d := by
      cases b with
      | none => rfl
      | some js =>
        unfold blockNoMatch at hb
        apply processCandidates_skip
        intro o hoin
        have := List.all_eq_true.mp hb o hoin
        simpa using this
    rw [hblk]
    exact ih d hrest

/-- Claim C10: a JSON-LD object whose `@type` is not exactly the string
`"Product"` or `"product"` — in particular an array such as
`["Product", "Thing"]` — never matches, and a document containing only such
objects leaves phase 1 empty: the result is exactly the fallback phase run
on the initial record. -/
theorem C10_theorem : ∀ (doc : Doc), doc.ldJson.all blockNoMatch = true →
    parse_product doc = .ok (normalizeData (phase2 doc initData)) := by
  intro doc h
  unfold parse_product
  rw [phase1_skip doc.ldJson initData (List.all_eq_true.mp h)]

/-- Witness for C10: the array-typed `@type` block extracts nothing — the
result is the untouched initial record. -/
theorem C10_witness : parse_product docC10 = .ok initData ∧
    isProductObjB (.obj [("@type", .arr [.str "Product", .str "Thing"]), ("name", .str "N")]) =
      false :=
  ⟨by rw [C10_theorem docC10 rfl]; rfl, rfl⟩

/-! ## C4 — which fields the handler routes through the translator -/

/-- Claim C4 counterexample: with a translator that returns `"T"` for every
call, the handler's `image` field stays `"IMG"` while the translated `name`
becomes `"T"` — `image` is copied verbatim, not passed through the
translator as the claim states. -/
theorem C4_cex :
    (extractHandler (fun _ => some "T") (.ok docC4)).result =
      some { initData with image := .str "IMG", name := .str "T" } ∧
    t (fun _ => some "T") (.str "IMG") = .str "T" ∧
    ("IMG" : String) ≠ "T" :=
  ⟨rfl, rfl, by decide⟩

/-- Claim C4 (amended): `price`, `weight` *and* `image` are taken verbatim
from extraction and never passed to the translator; only `name`,
`description`, `brand` and `category` go through `t`; and with a translator
throwing on every call, `t` is the identity on every extracted string, so
those fields keep their original extracted values. -/
theorem C4_theorem : ∀ (tr : Tr) (doc : Doc) (p : ProductData),
    parse_product doc = .ok p →
    ∃ r, (extractHandler tr (.ok doc)).result = some r ∧
      r.image = p.image ∧ r.price = p.price ∧ r.weight = p.weight ∧
      r.name = t tr p.name ∧ r.description = t tr p.description ∧
      r.brand = t tr p.brand ∧ r.category = t tr p.category ∧
      (∀ s : String, t (fun _ => none) (.str s) = .str s) := by
  intro tr doc p hp
  have hh : extractHandler tr (.ok doc) =
      { error := none,
        result := some
          { image := p.image, name := t tr p.name, price := p.price,
            description := t tr p.description, brand := t tr p.brand,
            category := t tr p.category, weight := p.weight } } := by
    unfold extractHandler
    dsimp only
    rw [hp]
  refine ⟨{ image := p.image, name := t tr p.name, price := p.price,
            description := t tr p.description, brand := t tr p.brand,
            category := t tr p.category, weight := p.weight },
    by rw [hh], rfl, rfl, rfl, rfl, rfl, rfl, rfl, ?_⟩
  intro s
  by_cases hs : s = ""
  · subst hs; rfl
  · unfold t
    rw [if_pos (by simpa [truthy] using hs)]

/-- Witness for C4: the throwing translator leaves every field of the
extracted record `{image "IMG", name "NM"}` in place. -/
theorem C4_witness :
    ∃ r, (extractHandler (fun _ => none) (.ok docC4)).result = some r ∧
      r.image = JsonV.str "IMG" ∧ r.price = .str "" ∧ r.weight = .str "" ∧
      r.name = t (fun _ => none) (.str "NM") ∧
      r.description = t (fun _ => none) (.str "") ∧
      r.brand = t (fun _ => none) (.str "") ∧
      r.category = t (fun _ => none) (.str "") ∧
      (∀ s : String, t (fun _ => none) (.str s) = .str s) :=
  C4_theorem (fun _ => none) docC4 { initData with image := .str "IMG", name := .str "NM" } rfl

/-! ## C8 — the handler always renders, surfacing errors as messages -/

/-- Claim C8: the handler always produces a rendered response (an error
message or a result): an HTTP status failure yields an error containing the
numeric code and no result; any other exception — including one escaping
`parse_product` — yields an error containing the exception's description and
no result; and in every case either an error or a result is present. -/
theorem C8_theorem : ∀ (tr : Tr) (code : Nat) (m : String) (doc : Doc),
    ((extractHandler tr (.statusError code)).result = none ∧
      ∃ e, (extractHandler tr (.statusError code)).error = some e ∧
        (toString code).toList <:+: e.toList) ∧
    ((extractHandler tr (.otherError m)).result = none ∧
      ∃ e, (extractHandler tr (.otherError m)).error = some e ∧
        m.toList <:+: e.toList) ∧
    (∀ pe, parse_product doc = .error pe →
      (extractHandler tr (.ok doc)).result = none ∧
      ∃ e, (extractHandler tr (.ok doc)).error = some e ∧
        (errMsg pe).toList <:+: e.toList) ∧
    (∀ fr : FetchResult,
      ((extractHandler tr fr).error.isSome || (extractHandler tr fr).result.isSome) = true) := by
  intro tr code m doc
  refine ⟨⟨rfl, "HTTP error: " ++ toString code, rfl, ?_⟩,
    ⟨rfl, "Unexpected error: " ++ m, rfl, ?_⟩, ?_, ?_⟩
  · exact ⟨("HTTP error: ").toList, [], by simp⟩
  · exact ⟨("Unexpected error: ").toList, [], by simp⟩
  · intro pe hpe
    have hh : extractHandler tr (.ok doc) =
        { error := some ("Unexpected error: " ++ errMsg pe), result := none } := by
      unfold extractHandler
      dsimp only
      rw [hpe]
    rw [hh]
    exact ⟨rfl, "Unexpected error: " ++ errMsg pe, rfl,
      ⟨("Unexpected error: ").toList, [], by simp⟩⟩
  · intro fr
    cases fr with
    | ok doc2 =>
      cases hp : parse_product doc2 with
      | error e =>
        have : extractHandler tr (.ok doc2) =
            { error := some ("Unexpected error: " ++ errMsg e), result := none } := by
          unfold extractHandler; dsimp only; rw [hp]
        rw [this]
        rfl
      | ok p =>
        unfold extractHandler
        dsimp only
        rw [hp]
        rfl
    | statusError c => rfl
    | otherError m2 => rfl

/-- Witness for C8: the 404 case and an actual parse exception both render
with an absent result. -/
theorem C8_witness :
    (extractHandler (fun _ => none) (.statusError 404)).result = none ∧
    (extractHandler (fun _ => none) (.ok cexDocC1)).result = none :=
  ⟨(C8_theorem (fun _ => none) 404 "x" cexDocC1).1.1,
   ((C8_theorem (fun _ => none) 404 "x" cexDocC1).2.2.1 .attributeError rfl).1⟩

/-! ## C6 — structured-metadata values win over fallbacks -/

theorem getF_fbImage_t (doc : Doc) (d : ProductData) (f : Field)
    (h : truthy (getF f d) = true) : getF f (fbImage doc d) = getF f d := by
  by_cases hi : truthy d.image = true
  · unfold fbImage; rw [if_pos hi]
  · unfold fbImage; rw [if_neg hi]
    cases doc.ogImage with
    | none => rfl
    | some s =>
      dsimp only
      by_cases hs : s = ""
      · rw [if_pos hs]
      · rw [if_neg hs]
        cases f with
        | image => exact absurd h hi
        | name => rfl
        | price => rfl
        | description => rfl
        | brand => rfl
        | category => rfl
        | weight => rfl

theorem getF_fbName_t (doc : Doc) (d : ProductData) (f : Field)
    (h : truthy (getF f d) = true) : getF f (fbName doc d) = getF f d := by
  by_cases hi : truthy d.name = true
  · unfold fbName; rw [if_pos hi]
  · unfold fbName; rw [if_neg hi]
    cases doc.h1Text with
    | none => rfl
    | some s =>
      dsimp only
      cases f with
      | image => rfl
      | name => exact absurd h hi
      | price => rfl
      | description => rfl
      | brand => rfl
      | category => rfl
      | weight => rfl

theorem getF_fbBrand_t (doc : Doc) (d : ProductData) (f : Field)
    (h : truthy (getF f d) = true) : getF f (fbBrand doc d) = getF f d := by
  by_cases hi : truthy d.brand = true
  · unfold fbBrand; rw [if_pos hi]
  · unfold fbBrand; rw [if_neg hi]
    cases doc.brandText with
    | none => rfl
    | some s =>
      dsimp only
      cases f with
      | image => rfl
      | name => rfl
      | price => rfl
      | description => rfl
      | brand => exact absurd h hi
      | category => rfl
      | weight => rfl

theorem getF_fbPrice_t (doc : Doc) (d : ProductData) (f : Field)
    (h : truthy (getF f d) = true) : getF f (fbPrice doc d) = getF f d := by
  by_cases hi : truthy d.price = true
  · unfold fbPrice; rw [if_pos hi]
  · unfold fbPrice; rw [if_neg hi]
    cases doc.priceText with
    | none => rfl
    | some s =>
      dsimp only
      cases f with
      | image => rfl
      | name => rfl
      | price => exact absurd h hi
      | description => rfl
      | brand => rfl
      | category => rfl
      | weight => rfl

theorem getF_fbDescription_t (doc : Doc) (d : ProductData) (f : Field)
    (h : truthy (getF f d) = true) : getF f (fbDescription doc d) = getF f d := by
  by_cases hi : truthy d.description = true
  · unfold fbDescription; rw [if_pos hi]
  · unfold fbDescription; rw [if_neg hi]
    cases doc.descText with
    | none => rfl
    | some s =>
      dsimp only
      cases f with
      | image => rfl
      | name => rfl
      | price => rfl
      | description => exact absurd h hi
      | brand => rfl
      | category => rfl
      | weight => rfl

theorem getF_fbCategory_t (doc : Doc) (d : ProductData) (f : Field)
    (h : truthy (getF f d) = true) : getF f (fbCategory doc d) = getF f d := by
  by_cases hi : truthy d.category = true
  · unfold fbCategory; rw [if_pos hi]
  · unfold fbCategory; rw [if_neg hi]
    by_cases hb : doc.breadcrumbs.isEmpty = true
    · rw [if_pos hb]
    · rw [if_neg hb]
      cases f with
      | image => rfl
      | name => rfl
      | price => rfl
      | description => rfl
      | brand => rfl
      | category => exact absurd h hi
      | weight => rfl

theorem getF_fbWeight_t (doc : Doc) (d : ProductData) (f : Field)
    (h : truthy (getF f d) = true) : getF f (fbWeight doc d) = getF f d := by
  by_cases hi : truthy d.weight = true
  · unfold fbWeight; rw [if_pos hi]
  · unfold fbWeight; rw [if_neg hi]
    cases searchWeight doc.pageText with
    | none => rfl
    | some s =>
      dsimp only
      cases f with
      | image => rfl
      | name => rfl
      | price => rfl
      | description => rfl
      | brand => rfl
      | category => rfl
      | weight => exact absurd h hi

theorem phase2_keep (doc : Doc) (d : ProductData) (f : Field)
    (h : truthy (getF f d) = true) : getF f (phase2 doc d) = getF f d := by
  have e1 := getF_fbImage_t doc d f h
  have h1 : truthy (getF f (fbImage doc d)) = true := by rw [e1]; exact h
  have e2 := getF_fbName_t doc (fbImage doc d) f h1
  have h2 : truthy (getF f (fbName doc (fbImage doc d))) = true := by rw [e2]; exact h1
  have e3 := getF_fbBrand_t doc (fbName doc (fbImage doc d)) f h2
  have h3 : truthy (getF f (fbBrand doc (fbName doc (fbImage doc d)))) = true := by
    rw [e3]; exact h2
  have e4 := getF_fbPrice_t doc (fbBrand doc (fbName doc (fbImage doc d))) f h3
  have h4 : truthy (getF f (fbPrice doc (fbBrand doc (fbName doc (fbImage doc d))))) = true := by
    rw [e4]; exact h3
  have e5 := getF_fbDescription_t doc
    (fbPrice doc (fbBrand doc (fbName doc (fbImage doc d)))) f h4
  have h5 : truthy (getF f (fbDescription doc
      (fbPrice doc (fbBrand doc (fbName doc (fbImage doc d)))))) = true := by
    rw [e5]; exact h4
  have e6 := getF_fbCategory_t doc
    (fbDescription doc (fbPrice doc (fbBrand doc (fbName doc (fbImage doc d))))) f h5
  have h6 : truthy (getF f (fbCategory doc (fbDescription doc
      (fbPrice doc (fbBrand doc (fbName doc (fbImage doc d))))))) = true := by
    rw [e6]; exact h5
  have e7 := getF_fbWeight_t doc
    (fbCategory doc (fbDescription doc (fbPrice doc (fbBrand doc (fbName doc (fbImage doc d))))))
    f h6
  unfold phase2
  rw [e7, e6, e5, e4, e3, e2, e1]

/-- Claim C6: whenever phase 1 leaves a field non-empty, the phase-2
fallbacks do not touch it, and the returned record holds that
structured-metadata value (modulo the final whitespace normalization pass). -/
theorem C6_theorem : ∀ (doc : Doc) (d : ProductData) (f : Field),
    phase1 doc.ldJson initData = .ok d → truthy (getF f d) = true →
    ∃ r, parse_product doc = .ok r ∧ getF f r = normVal (getF f d) := by
  intro doc d f h1 ht
  refine ⟨normalizeData (phase2 doc d), ?_, ?_⟩
  · unfold parse_product
    rw [h1]
  · rw [getF_normalizeData, phase2_keep doc d f ht]

/-- Witness for C6: the structured name `"Yapısal Ad"` wins over the `<h1>`
fallback `"Sayfa Başlığı"`. -/
theorem C6_witness :
    ∃ r, parse_product docC6 = .ok r ∧
      getF .name r = normVal (.str "Yapısal Ad") :=
  C6_theorem docC6 { initData with name := .str "Yapısal Ad" } .name rfl rfl

/-! ## C5 — exact-casing of the `@type` match -/

theorem fbImage_none (doc : Doc) (d : ProductData) (h : doc.ogImage = none) :
    fbImage doc d = d := by
  unfold fbImage
  rw [h]
  by_cases hb : truthy d.image = true
  · rw [if_pos hb]
  · rw [if_neg hb]

theorem fbName_none (doc : Doc) (d : ProductData) (h : doc.h1Text = none) :
    fbName doc d = d := by
  unfold fbName
  rw [h]
  by_cases hb : truthy d.name = true
  · rw [if_pos hb]
  · rw [if_neg hb]

theorem fbBrand_none (doc : Doc) (d : ProductData) (h : doc.brandText = none) :
    fbBrand doc d = d := by
  unfold fbBrand
  rw [h]
  by_cases hb : truthy d.brand = true
  · rw [if_pos hb]
  · rw [if_neg hb]

theorem fbPrice_none (doc : Doc) (d : ProductData) (h : doc.priceText = none) :
    fbPrice doc d = d := by
  unfold fbPrice
  rw [h]
  by_cases hb : truthy d.price = true
  · rw [if_pos hb]
  · rw [if_neg hb]

theorem fbDescription_none (doc : Doc) (d : ProductData) (h : doc.descText = none) :
    fbDescription doc d = d := by
  unfold fbDescription
  rw [h]
  by_cases hb : truthy d.description = true
  · rw [if_pos hb]
  · rw [if_neg hb]

theorem fbCategory_empty (doc : Doc) (d : ProductData) (h : doc.breadcrumbs = []) :
    fbCategory doc d = d := by
  unfold fbCategory
  rw [h]
  by_cases hb : truthy d.category = true
  · rw [if_pos hb]
  · rw [if_neg hb]; rfl

theorem fbWeight_none (doc : Doc) (d : ProductData) (h : searchWeight doc.pageText = none) :
    fbWeight doc d = d := by
  unfold fbWeight
  rw [h]
  by_cases hb : truthy d.weight = true
  · rw [if_pos hb]
  · rw [if_neg hb]

theorem phase2_typeNameDoc (ty nm : String) (d : ProductData) :
    phase2 (typeNameDoc ty nm) d = d := by
  unfold phase2
  rw [fbImage_none (typeNameDoc ty nm) _ rfl, fbName_none (typeNameDoc ty nm) _ rfl,
    fbBrand_none (typeNameDoc ty nm) _ rfl, fbPrice_none (typeNameDoc ty nm) _ rfl,
    fbDescription_none (typeNameDoc ty nm) _ rfl, fbCategory_empty (typeNameDoc ty nm) _ rfl,
    fbWeight_none (typeNameDoc ty nm) _ rfl]

theorem processObj_typeName (ty nm : String) :
    processObj [("@type", JsonV.str ty), ("name", JsonV.str nm)] initData =
      .ok { initData with name := pyOr (some (.str nm)) (.str "") } := by
  unfold processObj stepName stepImage stepBrand stepPrice stepDescription stepCategory stepAddp
  simp [jget, pyOr, pyOrO, initData]

/-- Claim C5 (amended): a structured-data object is selected exactly when
its `@type` is one of the two literal strings `"Product"` or `"product"`;
other casings such as `"PRODUCT"` do not match and extract nothing. -/
theorem C5_theorem : ∀ (ty nm : String),
    parse_product (typeNameDoc ty nm) =
      .ok { initData with
            name := if ty = "Product" ∨ ty = "product" then .str (pyNormalize nm)
                    else .str "" } := by
  intro ty nm
  have hj : jget [("@type", JsonV.str ty), ("name", JsonV.str nm)] "@type" =
      some (.str ty) := by simp [jget]
  by_cases hP : ty = "Product" ∨ ty = "product"
  · have hPT : isProductType (some (.str ty)) = true := by
      rcases hP with h | h <;> simp [isProductType, h]
    have h1 : phase1 (typeNameDoc ty nm).ldJson initData =
        .ok { initData with name := pyOr (some (.str nm)) (.str "") } := by
      show phase1 [some (.obj [("@type", JsonV.str ty), ("name", JsonV.str nm)])] initData = _
      unfold phase1 processBlock candidates processCandidates
      dsimp only
      rw [hj, if_pos hPT, processObj_typeName]
      rfl
    unfold parse_product
    rw [h1]
    dsimp only
    rw [phase2_typeNameDoc, if_pos hP]
    by_cases hnm : nm = ""
    · subst hnm; rfl
    · have : pyOr (some (JsonV.str nm)) (.str "") = .str nm := by
        simp [pyOr, truthy, hnm]
      rw [this]
      rfl
  · have hPT : isProductType (some (.str ty)) = false := by
      rw [not_or] at hP
      simp [isProductType, hP.1, hP.2]
    have h1 : phase1 (typeNameDoc ty nm).ldJson initData = .ok initData := by
      show phase1 [some (.obj [("@type", JsonV.str ty), ("name", JsonV.str nm)])] initData = _
      unfold phase1 processBlock candidates processCandidates
      dsimp only
      rw [hj, hPT]
      simp only [Bool.false_eq_true, if_false]
      rfl
    unfold parse_product
    rw [h1]
    dsimp only
    rw [phase2_typeNameDoc, if_neg hP]
    rfl

/-- Claim C5 counterexample: `@type = "PRODUCT"` is not treated as a
Product (the name is not extracted), while `"Product"` is. -/
theorem C5_cex :
    parse_product (typeNameDoc "PRODUCT" "N") = .ok initData ∧
    parse_product (typeNameDoc "Product" "N") = .ok { initData with name := .str "N" } :=
  ⟨rfl, rfl⟩

end NilayShop
